import Mathlib

/-!
Verification of the firmware-variables device-path and boot modules.

Shallow embedding conventions:
- Python `bytes` values are `List Nat` with each element below 256 (stated as a
  hypothesis where a theorem needs it).
- Python exceptions become `Except` error values; the `while` loop of
  `DevicePathList.from_bytes` is embedded with explicit fuel, and running out of
  fuel is a distinguished outcome (`DecodeError.outOfFuel`) that models the
  Python loop failing to terminate.
- The external variable store (`variables.py`, not part of the sources) is
  modelled from the spec as a total map from names to results.
-/

namespace FirmwareVariables

/-! ## Device path data model (device_path.py) -/

/-- Embeds the `DevicePathType` enumeration of device_path.py. -/
inductive DevicePathType where
  | HARDWARE_DEVICE_PATH
  | ACPI_DEVICE_PATH
  | MESSAGING_DEVICE_PATH
  | MEDIA_DEVICE_PATH
  | BIOS_BOOT_SPECIFICATION_DEVICE_PATH
  | END_OF_HARDWARE_DEVICE_PATH
deriving DecidableEq, Repr

/-- Numeric value of each `DevicePathType` member, as in the source. -/
def DevicePathType.value : DevicePathType → Nat
  | .HARDWARE_DEVICE_PATH => 0x01
  | .ACPI_DEVICE_PATH => 0x02
  | .MESSAGING_DEVICE_PATH => 0x03
  | .MEDIA_DEVICE_PATH => 0x04
  | .BIOS_BOOT_SPECIFICATION_DEVICE_PATH => 0x05
  | .END_OF_HARDWARE_DEVICE_PATH => 0x7F

/-- Embeds the enum lookup `DevicePathType(path_type)`: returns the member with
the given value, or `none` where Python raises `ValueError`. -/
def DevicePathType.ofValue? (n : Nat) : Option DevicePathType :=
  if n = 0x01 then some .HARDWARE_DEVICE_PATH
  else if n = 0x02 then some .ACPI_DEVICE_PATH
  else if n = 0x03 then some .MESSAGING_DEVICE_PATH
  else if n = 0x04 then some .MEDIA_DEVICE_PATH
  else if n = 0x05 then some .BIOS_BOOT_SPECIFICATION_DEVICE_PATH
  else if n = 0x7F then some .END_OF_HARDWARE_DEVICE_PATH
  else none

/-- Embeds `SUBTYPES_MAPPING[path_type](subtype)` membership: the value lists
are exactly the member values of the six subtype enumerations in
device_path.py (HardwareDevicePathSubtype, AcpiDevicePathSubtype,
MessagingDevicePathSubtype, MediaDevicePathSubtype,
BiosBootSpecificationDevicePathSubtype, EndOfHardwareDevicePathSubtype). -/
def subtypeValid : DevicePathType → Nat → Bool
  | .HARDWARE_DEVICE_PATH, s => decide (s ∈ ([1, 2, 3, 4, 5, 6] : List Nat))
  | .ACPI_DEVICE_PATH, s => decide (s ∈ ([1, 2, 3, 4] : List Nat))
  | .MESSAGING_DEVICE_PATH, s =>
      decide (s ∈ ([1, 2, 3, 4, 5, 6, 9, 10, 11, 12, 13, 14, 15, 16, 17, 18,
                    19, 20, 21, 22, 23, 24, 25, 26, 27, 28, 29, 30, 31, 32] : List Nat))
  | .MEDIA_DEVICE_PATH, s => decide (s ∈ ([1, 2, 3, 4, 5, 6, 7, 8, 9] : List Nat))
  | .BIOS_BOOT_SPECIFICATION_DEVICE_PATH, s => decide (s ∈ ([1] : List Nat))
  | .END_OF_HARDWARE_DEVICE_PATH, s => decide (s ∈ ([1, 0xFF] : List Nat))

/-- Embeds the `DevicePath` class: a validated type tag, the subtype value
(held as its numeric value; the constructor in the source validates it against
the subtype enumeration of `path_type`), and the payload bytes. -/
structure DevicePath where
  path_type : DevicePathType
  subtype : Nat
  data : List Nat
deriving DecidableEq, Repr

/-- Embeds the `HardDriveNode` dataclass of device_path.py. -/
structure HardDriveNode where
  partition_number : Nat
  partition_start_lba : Nat
  partition_size_lba : Nat
  partition_signature : List Nat
  partition_guid : Option String
  partition_format : Nat
  signature_type : Nat
deriving DecidableEq, Repr

/-! ## Decoding and encoding of device path lists -/

/-- Errors of `DevicePathList.from_bytes`: `structError` models the
`struct.error` raised by `EFI_DEVICE_PATH.unpack_from` when fewer than 4 bytes
remain, `unknownType` and `unknownSubtype` model the `ValueError` raised by the
enum lookups in `DevicePath.__init__`, and `outOfFuel` marks exhaustion of the
explicit fuel that stands in for the unbounded Python `while` loop. -/
inductive DecodeError where
  | structError
  | unknownType
  | unknownSubtype
  | outOfFuel
deriving DecidableEq, Repr

/-- Length field of the header at `o`: `raw[o+2] + 256 * raw[o+3]`, the
little-endian u16 read by `EFI_DEVICE_PATH.unpack_from(raw, o)`. -/
def headerLen (raw : List Nat) (o : Nat) : Nat :=
  raw.getD (o + 2) 0 + 256 * raw.getD (o + 3) 0

/-- Embeds the loop body of `DevicePathList.from_bytes`: while `offset <
len(raw)`, unpack the `<BBH` header at `offset` (a `struct.error` if fewer than
4 bytes remain), validate type and subtype as `DevicePath.__init__` does, take
the payload `raw[offset+4 : offset+length]` (a Python slice, which clamps
silently on both sides), and advance `offset` by `length`. -/
def fromBytesAux : Nat → List Nat → Nat → Except DecodeError (List DevicePath)
  | 0, raw, offset =>
      if raw.length ≤ offset then .ok [] else .error .outOfFuel
  | fuel + 1, raw, offset =>
      if raw.length ≤ offset then .ok []
      else if offset + 4 ≤ raw.length then
        match DevicePathType.ofValue? (raw.getD offset 0) with
        | none => .error .unknownType
        | some pt =>
          if subtypeValid pt (raw.getD (offset + 1) 0) then
            match fromBytesAux fuel raw (offset + headerLen raw offset) with
            | .ok rest =>
                .ok (⟨pt, raw.getD (offset + 1) 0,
                      (raw.drop (offset + 4)).take (headerLen raw offset - 4)⟩ :: rest)
            | .error e => .error e
          else .error .unknownSubtype
      else .error .structError

/-- Embeds `DevicePathList.from_bytes`; fuel `raw.length + 1` is ample for
every terminating run, since a loop iteration that makes progress consumes at
least one byte of offset budget. -/
def from_bytes (raw : List Nat) : Except DecodeError (List DevicePath) :=
  fromBytesAux (raw.length + 1) raw 0

/-- Embeds `EFI_DEVICE_PATH.pack(path_type.value, subtype.value, 4 + len(data))
+ data` for one node. `struct.pack` range-checks its `B` and `H` arguments and
raises `struct.error` on overflow; the reductions modulo 256 and 65536 below
are the identity whenever the fields are in range, which holds for every node
produced by decoding (type values are enum-bounded and a valid subtype value is
at most 255). -/
def nodeBytes (p : DevicePath) : List Nat :=
  [p.path_type.value, p.subtype % 256,
   (4 + p.data.length) % 256, (4 + p.data.length) / 256 % 256] ++ p.data

/-- Embeds `DevicePathList.to_bytes`: concatenation of each node encoding in
list order. -/
def to_bytes (l : List DevicePath) : List Nat :=
  (l.map nodeBytes).flatten

/-- Well-formedness of a buffer in the sense required for exact round-tripping:
every node consumed declares a length of at least 4 and lies entirely inside
the buffer, so no Python slice clamping occurs. This predicate follows the
words of the spec (each node has header length 4 plus payload size); the source
performs no such check. -/
def wellFormedFrom : Nat → List Nat → Nat → Bool
  | 0, raw, offset => decide (raw.length ≤ offset)
  | fuel + 1, raw, offset =>
      if raw.length ≤ offset then true
      else
        decide (offset + 4 ≤ raw.length) &&
        decide (4 ≤ headerLen raw offset) &&
        decide (offset + headerLen raw offset ≤ raw.length) &&
        wellFormedFrom fuel raw (offset + headerLen raw offset)

/-- Well-formedness of a whole buffer, starting at offset 0. -/
def wellFormed (raw : List Nat) : Bool :=
  wellFormedFrom (raw.length + 1) raw 0

/-! ## Little-endian integer helpers -/

/-- Embeds `int.from_bytes(bs, "little")` for byte-valued lists. -/
def leBytesToNat (bs : List Nat) : Nat :=
  bs.foldr (fun b acc => b + 256 * acc) 0

/-- Embeds `n.to_bytes(w, "little")`. Python raises `OverflowError` when `n`
does not fit in `w` bytes; theorems using this hypothesise the bound. -/
def natToLE : Nat → Nat → List Nat
  | 0, _ => []
  | w + 1, n => n % 256 :: natToLE w (n / 256)

/-! ## Hexadecimal rendering helpers -/

/-- Lowercase hexadecimal digit characters. -/
def hexDigitLower (k : Nat) : Char :=
  ("0123456789abcdef".toList).getD k '0'

/-- Uppercase hexadecimal digit characters. -/
def hexDigitUpper (k : Nat) : Char :=
  ("0123456789ABCDEF".toList).getD k '0'

/-- Two lowercase hex characters of one byte. -/
def byteHexLower (n : Nat) : List Char :=
  [hexDigitLower (n / 16 % 16), hexDigitLower (n % 16)]

/-- Uppercase hexadecimal digits of `n`, most significant first, written with
structural fuel (the first argument); `n / 16` shrinks fast enough that fuel
`n + 1` always suffices. -/
def hexUpperAux : Nat → Nat → List Char
  | 0, _ => []
  | fuel + 1, n =>
      if n < 16 then [hexDigitUpper n]
      else hexUpperAux fuel (n / 16) ++ [hexDigitUpper (n % 16)]

/-- Uppercase hexadecimal digits of `n` (at least one digit). -/
def hexUpper (n : Nat) : List Char :=
  hexUpperAux (n + 1) n

/-- Left-pads a character list with `c` up to width `w`. -/
def padLeft (c : Char) (w : Nat) (l : List Char) : List Char :=
  List.replicate (w - l.length) c ++ l

/-! ## UUID string derivation -/

/-- Embeds `str(uuid.UUID(bytes_le=b))` for a 16-byte signature: the first
three fields are read little-endian (so their bytes are reversed into the
canonical big-endian order) and the remaining eight bytes are kept as given;
the result is the canonical lowercase 8-4-4-4-12 hex form. -/
def uuid_str_from_bytes_le (b : List Nat) : String :=
  let g : Nat → Nat := fun i => b.getD i 0
  let canonical : List Nat :=
    [g 3, g 2, g 1, g 0, g 5, g 4, g 7, g 6, g 8, g 9, g 10, g 11, g 12, g 13, g 14, g 15]
  let hx : List Nat → List Char := fun bs => (bs.map byteHexLower).flatten
  String.mk (hx (canonical.take 4) ++ '-' :: hx ((canonical.drop 4).take 2) ++
             '-' :: hx ((canonical.drop 6).take 2) ++ '-' :: hx ((canonical.drop 8).take 2) ++
             '-' :: hx (canonical.drop 10))

/-! ## UTF-16 helpers (utils.py is not among the sources) -/

/-- Modelled from the spec: text handled by the file-path payload helpers of
the missing utils.py is treated at UTF-16 code-unit granularity, a list of
naturals below 65536. -/
abbrev Utf16Str := List Nat

/-- Modelled from the spec: groups a byte list into little-endian 16-bit code
units, the inverse of the UTF-16LE encoding (the spec does not specify a
trailing odd byte; none arises from the encoder, which always emits pairs). -/
def utf16UnitsFromBytes : List Nat → List Nat
  | a :: b :: rest => (a + 256 * b) :: utf16UnitsFromBytes rest
  | _ => []

/-- Modelled from the spec: `utf16_string_from_bytes` of the missing utils.py
decodes the raw bytes as a UTF-16LE string and strips a single trailing null
terminator if present. -/
def utf16_string_from_bytes (raw : List Nat) : Utf16Str :=
  let units := utf16UnitsFromBytes raw
  if units.getLast? = some 0 then units.dropLast else units

/-- Modelled from the spec: `string_to_utf16_bytes` of the missing utils.py
encodes the text as UTF-16LE and appends exactly one null terminator (two zero
bytes). -/
def string_to_utf16_bytes (s : Utf16Str) : List Nat :=
  (s.map (fun u => [u % 256, u / 256 % 256])).flatten ++ [0, 0]

/-! ## DevicePath accessors (device_path.py) -/

/-- Embeds `DevicePath.is_hard_drive`. -/
def DevicePath.is_hard_drive (p : DevicePath) : Bool :=
  decide (p.path_type = DevicePathType.MEDIA_DEVICE_PATH ∧ p.subtype = 1)

/-- Embeds `DevicePath.is_file_path`. -/
def DevicePath.is_file_path (p : DevicePath) : Bool :=
  decide (p.path_type = DevicePathType.MEDIA_DEVICE_PATH ∧ p.subtype = 4)

/-- Embeds `DevicePath.get_hard_drive_node`: `None` unless the node is a
hard-drive node with at least 38 payload bytes; otherwise the fixed 38-byte
layout is read, and the GUID string is derived only when
`partition_format == 2 and signature_type == 2 and len(signature) == 16`. -/
def DevicePath.get_hard_drive_node (p : DevicePath) : Option HardDriveNode :=
  if p.is_hard_drive then
    if 38 ≤ p.data.length then
      let data := p.data
      let signature := (data.drop 20).take 16
      let pFormat := data.getD 36 0
      let sType := data.getD 37 0
      some
        { partition_number := leBytesToNat (data.take 4)
          partition_start_lba := leBytesToNat ((data.drop 4).take 8)
          partition_size_lba := leBytesToNat ((data.drop 12).take 8)
          partition_signature := signature
          partition_guid :=
            if pFormat = 2 ∧ sType = 2 ∧ signature.length = 16 then
              some (uuid_str_from_bytes_le signature)
            else none
          partition_format := pFormat
          signature_type := sType }
    else none
  else none

/-- Embeds `DevicePath.set_hard_drive_node`: rewrites the payload from the
node fields when the variant matches, else reports failure. Python raises
`OverflowError` or `ValueError` when a field does not fit its width; theorems
hypothesise the bounds. -/
def DevicePath.set_hard_drive_node (p : DevicePath) (node : HardDriveNode) :
    DevicePath × Bool :=
  if p.is_hard_drive then
    ({ p with data :=
        natToLE 4 node.partition_number ++ natToLE 8 node.partition_start_lba ++
        natToLE 8 node.partition_size_lba ++ node.partition_signature ++
        [node.partition_format, node.signature_type] }, true)
  else (p, false)

/-- Embeds `DevicePath.get_file_path`. -/
def DevicePath.get_file_path (p : DevicePath) : Option Utf16Str :=
  if p.is_file_path then some (utf16_string_from_bytes p.data) else none

/-- Embeds `DevicePath.set_file_path`. -/
def DevicePath.set_file_path (p : DevicePath) (s : Utf16Str) : DevicePath × Bool :=
  if p.is_file_path then ({ p with data := string_to_utf16_bytes s }, true)
  else (p, false)

/-! ## Boot orchestration (boot.py) -/

/-- Modelled from the spec: failure signals of the external variable store
(variables.py is not among the sources): a not-found signal when the variable
is absent, plus other pass-through failures such as access denial. -/
inductive VarError where
  | notFound
  | accessDenied
  | otherFailure
deriving DecidableEq, Repr

/-- Modelled from the spec: the external collaborator interface
`read_variable(name) -> (bytes, attributes)` of the missing variables.py,
as a total map from variable names to outcomes (attributes play no role in
the claims and are omitted). -/
abbrev Store := String → Except VarError (List Nat)

/-- Modelled from the spec: `write_variable` updates the store at one name. -/
def storeUpdate (st : Store) (name : String) (v : List Nat) : Store :=
  fun n => if n = name then .ok v else st n

/-- Errors surfaced by the boot orchestration operations: the
`UnsupportedFirmware` signal of the `verify_uefi_firmware` precondition check
(utils.py is not among the sources; modelled from the spec as a boolean
platform flag), and pass-through store failures. -/
inductive FwError where
  | unsupportedFirmware
  | varError (e : VarError)
deriving DecidableEq, Repr

/-- Embeds `struct.pack("<h", v)`: two little-endian bytes of the
two-complement 16-bit representation; Python raises `struct.error` outside
`[-32768, 32768)`, which theorems hypothesise. -/
def pack_h (v : Int) : List Nat :=
  let u := (v % 65536).toNat
  [u % 256, u / 256 % 256]

/-- Embeds `struct.unpack("<h", ...)` on one 2-byte group. -/
def unpack16 (a b : Nat) : Int :=
  let u := a + 256 * b
  if u < 32768 then (u : Int) else (u : Int) - 65536

/-- Modelled from the spec: `iter_unpack("<h", raw)` of the missing utils.py
unpacks the whole payload as consecutive little-endian signed 16-bit values
(the spec leaves a trailing odd byte unspecified; none arises from the
encoder). -/
def iter_unpack_h : List Nat → List Int
  | a :: b :: rest => unpack16 a b :: iter_unpack_h rest
  | _ => []

/-- Embeds the payload built by `set_boot_order`. -/
def packBootOrder (ids : List Int) : List Nat :=
  (ids.map pack_h).flatten

/-- Embeds `get_boot_order`: after the firmware check, reads `BootOrder` and
unpacks all ids; store failures propagate. -/
def get_boot_order (uefi : Bool) (st : Store) : Except FwError (List Int) :=
  if uefi then
    match st "BootOrder" with
    | .ok raw => .ok (iter_unpack_h raw)
    | .error e => .error (.varError e)
  else .error .unsupportedFirmware

/-- Embeds `set_boot_order`: after the firmware check, writes the packed ids
to `BootOrder`, preserving caller order. -/
def set_boot_order (uefi : Bool) (ids : List Int) (st : Store) : Except FwError Store :=
  if uefi then .ok (storeUpdate st "BootOrder" (packBootOrder ids))
  else .error .unsupportedFirmware

/-- Embeds `"Boot{:04X}".format(entry_id)` rendered to characters: a
non-negative id prints as uppercase hexadecimal zero-padded to width at least
4; a negative id prints its sign first, the zero fill counting toward the
width. -/
def format04XChars (id : Int) : List Char :=
  if id < 0 then '-' :: padLeft '0' 3 (hexUpper (-id).toNat)
  else padLeft '0' 4 (hexUpper id.toNat)

/-- Embeds the variable name used by `get_boot_entry` and `set_boot_entry`. -/
def bootEntryVarName (id : Int) : String :=
  String.mk (['B', 'o', 'o', 't'] ++ format04XChars id)

/-- Embeds `get_boot_entry`: after the firmware check, reads the variable
named by `bootEntryVarName`; store failures propagate. -/
def get_boot_entry (uefi : Bool) (st : Store) (id : Int) : Except FwError (List Nat) :=
  if uefi then
    match st (bootEntryVarName id) with
    | .ok raw => .ok raw
    | .error e => .error (.varError e)
  else .error .unsupportedFirmware

/-- Embeds `set_boot_entry`: after the firmware check, writes the raw bytes to
the variable named by `bootEntryVarName`. -/
def set_boot_entry (uefi : Bool) (st : Store) (id : Int) (raw : List Nat) :
    Except FwError Store :=
  if uefi then .ok (storeUpdate st (bootEntryVarName id) raw)
  else .error .unsupportedFirmware

/-- Embeds `struct.unpack("<h", raw)` on a whole payload: succeeds only on an
exactly 2-byte payload, as the Python call raises `struct.error` otherwise. -/
def unpack_h (raw : List Nat) : Option Int :=
  match raw with
  | [a, b] => some (unpack16 a b)
  | _ => none

/-- Embeds `get_boot_next`: the firmware check runs outside the `try` block
and its failure propagates; inside the block, reading `BootNext` and unpacking
one signed 16-bit id is guarded by `except Exception: return None`, so every
failure there yields `None`. -/
def get_boot_next (uefi : Bool) (st : Store) : Except FwError (Option Int) :=
  if uefi then
    .ok (match st "BootNext" with
      | .error _ => none
      | .ok raw =>
        match unpack_h raw with
        | some v => some v
        | none => none)
  else .error .unsupportedFirmware

/-! ## Auxiliary predicates used by the verification statements -/

/-- Uppercase hexadecimal digit characters, as a decidable character test. -/
def isUpperHexDigit (c : Char) : Bool :=
  decide (('0' ≤ c ∧ c ≤ '9') ∨ ('A' ≤ c ∧ c ≤ 'F'))

/-- Shape of a boot entry variable name as the spec describes it: the four
characters `Boot` followed by exactly 4 uppercase hexadecimal digits. -/
def nameIsBootHex4 (s : String) : Bool :=
  decide (s.data.length = 8) && decide (s.data.take 4 = ['B', 'o', 'o', 't']) &&
  (s.data.drop 4).all isUpperHexDigit

/-- Condition under which the `from_bytes` loop appends a node at offset `o`
and continues: the header is fully inside the buffer, and type and subtype are
recognized. -/
def nodeOKAt (raw : List Nat) (o : Nat) : Bool :=
  decide (o + 4 ≤ raw.length) &&
  (match DevicePathType.ofValue? (raw.getD o 0) with
   | some pt => subtypeValid pt (raw.getD (o + 1) 0)
   | none => false)

/-- Offsets the `from_bytes` loop visits: the loop starts at the first offset
and each completed iteration advances by exactly the declared header length. -/
inductive Reaches (raw : List Nat) : Nat → Nat → Prop where
  | refl (o : Nat) : Reaches raw o o
  | step {a b : Nat} : Reaches raw a b → nodeOKAt raw b = true →
      Reaches raw a (b + headerLen raw b)

/-! ## Helper lemmas -/

theorem DevicePathType.ofValue?_value {n : Nat} {pt : DevicePathType}
    (h : DevicePathType.ofValue? n = some pt) : pt.value = n := by
  unfold DevicePathType.ofValue? at h
  split_ifs at h <;>
    simp only [Option.some.injEq, reduceCtorEq] at h <;>
    (try subst h) <;>
    simp_all [DevicePathType.value]

theorem subtypeValid_lt {pt : DevicePathType} {s : Nat}
    (h : subtypeValid pt s = true) : s < 256 := by
  cases pt <;> simp [subtypeValid] at h <;> omega

theorem drop_eq_getD_cons (l : List Nat) (n : Nat) (h : n < l.length) :
    l.drop n = l.getD n 0 :: l.drop (n + 1) := by
  induction l generalizing n with
  | nil => simp at h
  | cons a l ih =>
    cases n with
    | zero => simp [List.getD]
    | succ n =>
      simp only [List.length_cons, Nat.add_lt_add_iff_right] at h
      exact ih n h

theorem getD_eq_headD_drop (l : List Nat) (n : Nat) :
    l.getD n 0 = (l.drop n).headD 0 := by
  induction l generalizing n with
  | nil => simp [List.getD]
  | cons a l ih =>
    cases n with
    | zero => simp [List.getD]
    | succ n => exact ih n

theorem fromBytesAux_of_le (fuel : Nat) (raw : List Nat) (offset : Nat)
    (h : raw.length ≤ offset) : fromBytesAux fuel raw offset = .ok [] := by
  cases fuel with
  | zero => unfold fromBytesAux; rw [if_pos h]
  | succ n => unfold fromBytesAux; rw [if_pos h]

theorem fromBytesAux_step (fuel : Nat) (raw : List Nat) (offset : Nat)
    (pt : DevicePathType) (h4 : offset + 4 ≤ raw.length)
    (hty : DevicePathType.ofValue? (raw.getD offset 0) = some pt)
    (hsub : subtypeValid pt (raw.getD (offset + 1) 0) = true) :
    fromBytesAux (fuel + 1) raw offset =
      match fromBytesAux fuel raw (offset + headerLen raw offset) with
      | .ok rest =>
          .ok (⟨pt, raw.getD (offset + 1) 0,
                (raw.drop (offset + 4)).take (headerLen raw offset - 4)⟩ :: rest)
      | .error e => .error e := by
  conv_lhs => rw [fromBytesAux]
  rw [if_neg (by omega), if_pos h4, hty]
  exact if_pos hsub

/-! ## C2: decode validation behavior -/

/-- C2 counterexample: the claim says a declared length overrunning the buffer
makes decoding fail with TruncatedPath; instead, `from_bytes` silently clamps
the payload slice and succeeds on `[4, 4, 16, 0]`, whose single header
declares length 16 with only 4 bytes present. -/
theorem c2_counterexample :
    from_bytes [4, 4, 16, 0] = .ok [⟨.MEDIA_DEVICE_PATH, 4, []⟩] := rfl

/-- C2 amended: decoding raises no MalformedHeader or TruncatedPath. A
trailing partial header (fewer than 4 bytes at a visited offset strictly
inside the buffer) raises the unpack error of `struct.unpack_from`; a header
declaring length 2 is accepted at its own node, decode failing only at the
next offset with the unpack error; a declared length of at least 4 that
overruns the buffer is silently clamped to an empty payload and decoding
succeeds. -/
theorem c2_decode_behavior :
    (∀ (raw : List Nat) (o fuel : Nat), o < raw.length → raw.length < o + 4 →
      fromBytesAux (fuel + 1) raw o = .error .structError)
    ∧ from_bytes [4, 4, 2, 0] = .error .structError
    ∧ (∀ lo hi : Nat, 4 ≤ lo + 256 * hi →
        from_bytes [4, 4, lo, hi] = .ok [⟨.MEDIA_DEVICE_PATH, 4, []⟩]) := by
  refine ⟨?_, rfl, ?_⟩
  · intro raw o fuel h1 h2
    simp only [fromBytesAux]
    rw [if_neg (by omega), if_neg (by omega)]
  · intro lo hi h
    show fromBytesAux (4 + 1) [4, 4, lo, hi] 0 = _
    rw [fromBytesAux_step 4 [4, 4, lo, hi] 0 .MEDIA_DEVICE_PATH (by simp) rfl rfl]
    rw [fromBytesAux_of_le 4 [4, 4, lo, hi] (0 + headerLen [4, 4, lo, hi] 0)
      (by show 4 ≤ 0 + (lo + 256 * hi); omega)]
    simp [List.take_nil]

/-- C2 witness: a concrete trailing partial header (one byte at offset 4 of a
5-byte buffer) makes the decoding step fail with the unpack error. -/
theorem c2_decode_behavior_witness :
    fromBytesAux 1 [1, 1, 4, 0, 9] 4 = .error .structError :=
  c2_decode_behavior.1 [1, 1, 4, 0, 9] 4 0 (by decide) (by decide)

/-! ## C5: unknown type and subtype tags are rejected -/

/-- C5: decoding a node whose header type byte is not a member of the
DevicePathType enumeration fails with the unknown-type error, and one whose
subtype byte is not a member of the subtype enumeration of its type fails with
the unknown-subtype error; no unknown pairing is coerced to a default. -/
theorem c5_unknown_tags_error :
    ∀ (raw : List Nat) (o fuel : Nat), o + 4 ≤ raw.length →
      (DevicePathType.ofValue? (raw.getD o 0) = none →
        fromBytesAux (fuel + 1) raw o = .error .unknownType)
      ∧ (∀ pt, DevicePathType.ofValue? (raw.getD o 0) = some pt →
          subtypeValid pt (raw.getD (o + 1) 0) = false →
          fromBytesAux (fuel + 1) raw o = .error .unknownSubtype) := by
  intro raw o fuel h4
  constructor
  · intro hty
    simp only [fromBytesAux]
    rw [if_neg (by omega), if_pos h4, hty]
  · intro pt hty hsub
    simp only [fromBytesAux]
    rw [if_neg (by omega), if_pos h4, hty]
    exact if_neg (by rw [hsub]; simp)

/-- C5 witness: type byte 9 is unknown, and subtype byte 10 is unknown for the
Media type. -/
theorem c5_unknown_tags_error_witness :
    from_bytes [9, 1, 4, 0] = .error .unknownType
    ∧ from_bytes [4, 10, 4, 0] = .error .unknownSubtype :=
  ⟨(c5_unknown_tags_error [9, 1, 4, 0] 0 4 (by decide)).1 rfl,
   (c5_unknown_tags_error [4, 10, 4, 0] 0 4 (by decide)).2 .MEDIA_DEVICE_PATH rfl rfl⟩

/-! ## C3: get_boot_next failure handling -/

/-- C3 counterexample: the claim says failures other than absence (such as
access denial) propagate to the caller as errors; instead the bare
`except Exception` of `get_boot_next` swallows them and returns the absent
value. -/
theorem c3_counterexample :
    get_boot_next true (fun _ => .error .accessDenied) = .ok none := rfl

/-- C3 amended: `get_boot_next` returns the explicit absent value (not an
error and not zero) when BootNext is absent, but every other failure inside
the guarded read (access denial, malformed payload) is also swallowed to the
absent value rather than propagating; only the firmware-support precondition
failure propagates as an error. A well-formed 2-byte payload returns its id. -/
theorem c3_boot_next_behavior :
    ∀ st : Store,
      (st "BootNext" = .error .notFound → get_boot_next true st = .ok none)
      ∧ (∀ e, st "BootNext" = .error e → get_boot_next true st = .ok none)
      ∧ (∀ raw, st "BootNext" = .ok raw → unpack_h raw = none →
          get_boot_next true st = .ok none)
      ∧ (∀ raw v, st "BootNext" = .ok raw → unpack_h raw = some v →
          get_boot_next true st = .ok (some v))
      ∧ get_boot_next false st = .error .unsupportedFirmware := by
  intro st
  refine ⟨fun h => ?_, fun e h => ?_, fun raw h hu => ?_, fun raw v h hu => ?_, rfl⟩
  · simp [get_boot_next, h]
  · simp [get_boot_next, h]
  · simp [get_boot_next, h, hu]
  · simp [get_boot_next, h, hu]

/-- C3 witness: an absent BootNext variable yields the absent value. -/
theorem c3_boot_next_behavior_witness :
    get_boot_next true (fun _ => .error .notFound) = .ok none :=
  (c3_boot_next_behavior (fun _ => .error .notFound)).1 rfl

/-! ## C6: file path round trip -/

theorem utf16_units_roundtrip (s : Utf16Str) (h : ∀ u ∈ s, u < 65536) :
    utf16UnitsFromBytes (string_to_utf16_bytes s) = s ++ [0] := by
  induction s with
  | nil => rfl
  | cons u s ih =>
    have hu : u < 65536 := h u (by simp)
    have hdiv : u / 256 % 256 = u / 256 := Nat.mod_eq_of_lt (by omega)
    show (u % 256 + 256 * (u / 256 % 256)) :: utf16UnitsFromBytes (string_to_utf16_bytes s)
        = (u :: s) ++ [0]
    rw [ih (fun v hv => h v (by simp [hv])), hdiv]
    congr 1
    omega

theorem utf16_roundtrip (s : Utf16Str) (h : ∀ u ∈ s, u < 65536) :
    utf16_string_from_bytes (string_to_utf16_bytes s) = s := by
  unfold utf16_string_from_bytes
  rw [utf16_units_roundtrip s h]
  rw [if_pos (by simp), List.dropLast_concat]

/-- C6: on a node of the (Media, FilePath) variant, setting the file path and
reading it back returns the same text: encoding appends exactly one UTF-16LE
null terminator which decoding strips again. -/
theorem c6_file_path_roundtrip :
    ∀ (p : DevicePath) (s : Utf16Str), p.is_file_path = true →
      (∀ u ∈ s, u < 65536) →
      (p.set_file_path s).1.get_file_path = some s := by
  intro p s hp hs
  have hset : (p.set_file_path s).1 = { p with data := string_to_utf16_bytes s } := by
    simp [DevicePath.set_file_path, hp]
  rw [hset]
  have hp2 : DevicePath.is_file_path { p with data := string_to_utf16_bytes s } = true := by
    simpa [DevicePath.is_file_path] using hp
  simp [DevicePath.get_file_path, hp2, utf16_roundtrip s hs]

/-- C6 witness: the concrete path of the spec example, as UTF-16 code units
(all ASCII), round-trips through a FilePath node. -/
theorem c6_file_path_roundtrip_witness :
    (DevicePath.set_file_path ⟨.MEDIA_DEVICE_PATH, 4, []⟩
        [92, 69, 70, 73, 92, 66, 79, 79, 84, 92, 66, 79, 79, 84, 88,
         54, 52, 46, 69, 70, 73]).1.get_file_path =
      some [92, 69, 70, 73, 92, 66, 79, 79, 84, 92, 66, 79, 79, 84, 88,
            54, 52, 46, 69, 70, 73] :=
  c6_file_path_roundtrip ⟨.MEDIA_DEVICE_PATH, 4, []⟩ _ (by decide) (by decide)

/-! ## C7: boot order round trip -/

theorem unpack16_pack (v : Int) (h1 : -32768 ≤ v) (h2 : v < 32768) :
    unpack16 ((v % 65536).toNat % 256) ((v % 65536).toNat / 256 % 256) = v := by
  unfold unpack16
  simp only []
  split <;> omega

theorem iter_unpack_pack (ids : List Int)
    (h : ∀ v ∈ ids, -32768 ≤ v ∧ v < 32768) :
    iter_unpack_h (packBootOrder ids) = ids := by
  induction ids with
  | nil => rfl
  | cons v ids ih =>
    have hv := h v (by simp)
    show unpack16 ((v % 65536).toNat % 256) ((v % 65536).toNat / 256 % 256)
        :: iter_unpack_h (packBootOrder ids) = v :: ids
    rw [unpack16_pack v hv.1 hv.2, ih (fun w hw => h w (by simp [hw]))]

/-- C7: for ids representable as signed 16-bit values, `set_boot_order` packs
them as consecutive little-endian i16 values in caller order, and
`get_boot_order` unpacks that payload back to the same list, order and
duplicates preserved. -/
theorem c7_boot_order_roundtrip :
    ∀ (ids : List Int) (st : Store),
      (∀ v ∈ ids, -32768 ≤ v ∧ v < 32768) →
      set_boot_order true ids st = .ok (storeUpdate st "BootOrder" (packBootOrder ids))
      ∧ get_boot_order true (storeUpdate st "BootOrder" (packBootOrder ids)) = .ok ids := by
  intro ids st h
  refine ⟨rfl, ?_⟩
  simp [get_boot_order, storeUpdate, iter_unpack_pack ids h]

/-- C7 witness: the example of the spec, ids `[3, 0, 7]`, round-trips through
the store with order and absence of deduplication visible. -/
theorem c7_boot_order_roundtrip_witness :
    get_boot_order true
        (storeUpdate (fun _ => .error .notFound) "BootOrder" (packBootOrder [3, 0, 7]))
      = .ok [3, 0, 7] :=
  (c7_boot_order_roundtrip [3, 0, 7] (fun _ => .error .notFound) (by decide)).2

/-! ## C8: variant-gated accessors return absent values, never raise -/

/-- C8: `get_hard_drive_node` is populated exactly when the node is the
(Media, HardDrive) variant with at least 38 payload bytes, and
`get_file_path` exactly when the node is the (Media, FilePath) variant, the
empty payload giving the empty string; both are total functions returning an
absent value otherwise. -/
theorem c8_accessor_gating :
    ∀ p : DevicePath,
      ((p.get_hard_drive_node).isSome = true ↔
        p.is_hard_drive = true ∧ 38 ≤ p.data.length)
      ∧ ((p.get_file_path).isSome = true ↔ p.is_file_path = true)
      ∧ (p.is_file_path = true → p.data = [] → p.get_file_path = some []) := by
  intro p
  refine ⟨?_, ?_, ?_⟩
  · unfold DevicePath.get_hard_drive_node
    split_ifs with h1 h2 <;> simp_all
  · unfold DevicePath.get_file_path
    split_ifs with h1 <;> simp_all
  · intro h1 h2
    simp [DevicePath.get_file_path, h1, h2, utf16_string_from_bytes, utf16UnitsFromBytes]

/-- C8 witness: a FilePath node with empty payload yields the empty string. -/
theorem c8_accessor_gating_witness :
    (DevicePath.get_file_path ⟨.MEDIA_DEVICE_PATH, 4, []⟩) = some [] :=
  (c8_accessor_gating ⟨.MEDIA_DEVICE_PATH, 4, []⟩).2.2 (by decide) rfl

/-! ## C4: hard drive node round trip -/

theorem natToLE_length : ∀ (w n : Nat), (natToLE w n).length = w := by
  intro w
  induction w with
  | zero => intro n; rfl
  | succ w ih => intro n; simp [natToLE, ih]

theorem leBytesToNat_natToLE : ∀ (w n : Nat), n < 256 ^ w →
    leBytesToNat (natToLE w n) = n := by
  intro w
  induction w with
  | zero => intro n h; interval_cases n; rfl
  | succ w ih =>
    intro n h
    show n % 256 + 256 * leBytesToNat (natToLE w (n / 256)) = n
    rw [ih (n / 256) (by omega)]
    omega

/-- C4 counterexample: the claim quantifies over every HardDriveNode with a
16-byte signature and in-range integer fields, but a node carrying a stale
`partition_guid` while its format and signature type are not `(2, 2)` does not
round-trip: the decoder rebuilds the guid as absent, so the returned node
differs from the one set. -/
theorem c4_counterexample :
    (DevicePath.set_hard_drive_node ⟨.MEDIA_DEVICE_PATH, 1, []⟩
        ⟨0, 0, 0, List.replicate 16 0, some "x", 1, 1⟩).1.get_hard_drive_node
      ≠ some ⟨0, 0, 0, List.replicate 16 0, some "x", 1, 1⟩ := by
  decide

/-- C4 amended: on a (Media, HardDrive) node, for any HardDriveNode whose
signature is exactly 16 bytes and whose integer fields fit their widths,
setting then getting returns the node unchanged whenever
`(partition_format, signature_type)` differs from `(2, 2)` and the set node
carries no guid (the invariant of the data model); when they equal `(2, 2)`
the returned node is the set node with `partition_guid` rebuilt as the
mixed-endian UUID string of the 16 signature bytes. -/
theorem c4_hard_drive_roundtrip :
    ∀ (p : DevicePath) (node : HardDriveNode),
      p.is_hard_drive = true →
      node.partition_signature.length = 16 →
      node.partition_number < 2 ^ 32 →
      node.partition_start_lba < 2 ^ 64 →
      node.partition_size_lba < 2 ^ 64 →
      node.partition_format < 256 →
      node.signature_type < 256 →
      (¬(node.partition_format = 2 ∧ node.signature_type = 2) →
        node.partition_guid = none →
        (p.set_hard_drive_node node).1.get_hard_drive_node = some node)
      ∧ ((node.partition_format = 2 ∧ node.signature_type = 2) →
        (p.set_hard_drive_node node).1.get_hard_drive_node =
          some { node with
                 partition_guid := some (uuid_str_from_bytes_le node.partition_signature) }) := by
  intro p node hp hsig h1 h2 h3 h4 h5
  obtain ⟨pn, pstart, psize, sig, guid, f, t⟩ := node
  simp only at hsig h1 h2 h3 h4 h5
  set A := natToLE 4 pn with hA
  set B := natToLE 8 pstart with hB
  set C := natToLE 8 psize with hC
  set D := A ++ B ++ C ++ sig ++ [f, t] with hD
  have hlA : A.length = 4 := natToLE_length 4 pn
  have hlB : B.length = 8 := natToLE_length 8 pstart
  have hlC : C.length = 8 := natToLE_length 8 psize
  have hDassoc : D = A ++ (B ++ (C ++ (sig ++ [f, t]))) := by simp [hD, List.append_assoc]
  have h_take4 : D.take 4 = A := by rw [hDassoc]; exact List.take_left' hlA
  have h_drop4 : D.drop 4 = B ++ (C ++ (sig ++ [f, t])) := by
    rw [hDassoc]; exact List.drop_left' hlA
  have h_d4t8 : (D.drop 4).take 8 = B := by rw [h_drop4]; exact List.take_left' hlB
  have h_drop12 : D.drop 12 = C ++ (sig ++ [f, t]) := by
    have h12 : D.drop 12 = (D.drop 4).drop 8 := by rw [List.drop_drop]
    rw [h12, h_drop4]; exact List.drop_left' hlB
  have h_d12t8 : (D.drop 12).take 8 = C := by rw [h_drop12]; exact List.take_left' hlC
  have h_drop20 : D.drop 20 = sig ++ [f, t] := by
    have h20 : D.drop 20 = (D.drop 12).drop 8 := by rw [List.drop_drop]
    rw [h20, h_drop12]; exact List.drop_left' hlC
  have h_sig : (D.drop 20).take 16 = sig := by rw [h_drop20]; exact List.take_left' hsig
  have h_drop36 : D.drop 36 = [f, t] := by
    have h36 : D.drop 36 = (D.drop 20).drop 16 := by rw [List.drop_drop]
    rw [h36, h_drop20]; exact List.drop_left' hsig
  have h_f : D.getD 36 0 = f := by rw [getD_eq_headD_drop, h_drop36]; rfl
  have h_t : D.getD 37 0 = t := by
    rw [getD_eq_headD_drop]
    have h37 : D.drop 37 = (D.drop 36).drop 1 := by rw [List.drop_drop]
    rw [h37, h_drop36]
    rfl
  have h_len : D.length = 38 := by simp [hD, hlA, hlB, hlC, hsig]
  have hset : (DevicePath.set_hard_drive_node p
      ⟨pn, pstart, psize, sig, guid, f, t⟩).1 = { p with data := D } := by
    simp [DevicePath.set_hard_drive_node, hp, hD]
  have hp2 : ({ p with data := D } : DevicePath).is_hard_drive = true := by
    simpa [DevicePath.is_hard_drive] using hp
  have hget : ({ p with data := D } : DevicePath).get_hard_drive_node =
      some ⟨pn, pstart, psize, sig,
            if f = 2 ∧ t = 2 then some (uuid_str_from_bytes_le sig) else none, f, t⟩ := by
    unfold DevicePath.get_hard_drive_node
    rw [if_pos hp2, if_pos (by simp [h_len])]
    simp only [h_take4, h_d4t8, h_d12t8, h_sig, h_f, h_t, hsig]
    rw [hA, leBytesToNat_natToLE 4 pn (by norm_num; omega),
        hB, leBytesToNat_natToLE 8 pstart (by norm_num; omega),
        hC, leBytesToNat_natToLE 8 psize (by norm_num; omega)]
    simp
  constructor
  · intro hne hguid
    simp only at hne hguid
    subst hguid
    rw [hset, hget, if_neg hne]
  · intro heq
    simp only at heq
    rw [hset, hget, if_pos heq]

/-- C4 witness: a node with format and signature type `(1, 1)` and no guid
round-trips unchanged, and one with `(2, 2)` comes back with the derived GUID
string. -/
theorem c4_hard_drive_roundtrip_witness :
    (DevicePath.set_hard_drive_node ⟨.MEDIA_DEVICE_PATH, 1, []⟩
        ⟨1, 2, 3, List.replicate 16 0, none, 1, 1⟩).1.get_hard_drive_node
      = some ⟨1, 2, 3, List.replicate 16 0, none, 1, 1⟩ :=
  (c4_hard_drive_roundtrip ⟨.MEDIA_DEVICE_PATH, 1, []⟩
      ⟨1, 2, 3, List.replicate 16 0, none, 1, 1⟩
      (by decide) (by decide) (by norm_num) (by norm_num) (by norm_num)
      (by norm_num) (by norm_num)).1 (by simp) rfl

/-! ## C1: byte-exact round trip on well-formed buffers -/

theorem getD_mem (l : List Nat) (n : Nat) (h : n < l.length) : l.getD n 0 ∈ l := by
  induction l generalizing n with
  | nil => simp at h
  | cons a l ih =>
    cases n with
    | zero => simp [List.getD]
    | succ n =>
      simp only [List.length_cons, Nat.add_lt_add_iff_right] at h
      exact List.mem_cons_of_mem a (ih n h)

theorem to_bytes_cons (x : DevicePath) (xs : List DevicePath) :
    to_bytes (x :: xs) = nodeBytes x ++ to_bytes xs := by
  simp [to_bytes]

theorem fromBytesAux_unknownType (fuel : Nat) (raw : List Nat) (offset : Nat)
    (h4 : offset + 4 ≤ raw.length)
    (hty : DevicePathType.ofValue? (raw.getD offset 0) = none) :
    fromBytesAux (fuel + 1) raw offset = .error .unknownType := by
  conv_lhs => rw [fromBytesAux]
  rw [if_neg (by omega), if_pos h4, hty]

theorem fromBytesAux_unknownSubtype (fuel : Nat) (raw : List Nat) (offset : Nat)
    (pt : DevicePathType) (h4 : offset + 4 ≤ raw.length)
    (hty : DevicePathType.ofValue? (raw.getD offset 0) = some pt)
    (hsub : subtypeValid pt (raw.getD (offset + 1) 0) = false) :
    fromBytesAux (fuel + 1) raw offset = .error .unknownSubtype := by
  conv_lhs => rw [fromBytesAux]
  rw [if_neg (by omega), if_pos h4, hty]
  exact if_neg (by rw [hsub]; simp)

theorem roundtrip_aux :
    ∀ (fuel : Nat) (raw : List Nat) (offset : Nat) (l : List DevicePath),
      (∀ b ∈ raw, b < 256) → wellFormedFrom fuel raw offset = true →
      fromBytesAux fuel raw offset = .ok l → to_bytes l = raw.drop offset := by
  intro fuel
  induction fuel with
  | zero =>
    intro raw offset l hb hwf hdec
    have hle : raw.length ≤ offset := by
      unfold wellFormedFrom at hwf
      exact of_decide_eq_true hwf
    rw [fromBytesAux_of_le 0 raw offset hle] at hdec
    injection hdec with h
    subst h
    simp [to_bytes, List.drop_eq_nil_of_le hle]
  | succ fuel ih =>
    intro raw offset l hb hwf hdec
    by_cases hoff : raw.length ≤ offset
    · rw [fromBytesAux_of_le (fuel + 1) raw offset hoff] at hdec
      injection hdec with h
      subst h
      simp [to_bytes, List.drop_eq_nil_of_le hoff]
    · unfold wellFormedFrom at hwf
      rw [if_neg hoff] at hwf
      simp only [Bool.and_eq_true, decide_eq_true_eq] at hwf
      obtain ⟨⟨⟨h4, hL4⟩, hLin⟩, hwf2⟩ := hwf
      cases hty : DevicePathType.ofValue? (raw.getD offset 0) with
      | none =>
        rw [fromBytesAux_unknownType fuel raw offset h4 hty] at hdec
        cases hdec
      | some pt =>
        cases hsub : subtypeValid pt (raw.getD (offset + 1) 0) with
        | false =>
          rw [fromBytesAux_unknownSubtype fuel raw offset pt h4 hty hsub] at hdec
          cases hdec
        | true =>
          rw [fromBytesAux_step fuel raw offset pt h4 hty hsub] at hdec
          cases hrest : fromBytesAux fuel raw (offset + headerLen raw offset) with
          | error e => rw [hrest] at hdec; cases hdec
          | ok rest =>
            rw [hrest] at hdec
            injection hdec with h
            subst h
            have ihres : to_bytes rest = raw.drop (offset + headerLen raw offset) :=
              ih raw (offset + headerLen raw offset) rest hb hwf2 hrest
            set L := headerLen raw offset with hLdef
            set d := (raw.drop (offset + 4)).take (L - 4) with hd
            have hb2 : raw.getD (offset + 2) 0 < 256 :=
              hb _ (getD_mem raw (offset + 2) (by omega))
            have hb3 : raw.getD (offset + 3) 0 < 256 :=
              hb _ (getD_mem raw (offset + 3) (by omega))
            have hL_eq : L = raw.getD (offset + 2) 0 + 256 * raw.getD (offset + 3) 0 := rfl
            have hdata_len : d.length = L - 4 := by
              rw [hd, List.length_take, List.length_drop]
              omega
            have hd0 : raw.drop offset = raw.getD offset 0 :: raw.drop (offset + 1) :=
              drop_eq_getD_cons raw offset (by omega)
            have hd1 : raw.drop (offset + 1)
                = raw.getD (offset + 1) 0 :: raw.drop (offset + 2) :=
              drop_eq_getD_cons raw (offset + 1) (by omega)
            have hd2 : raw.drop (offset + 2)
                = raw.getD (offset + 2) 0 :: raw.drop (offset + 3) :=
              drop_eq_getD_cons raw (offset + 2) (by omega)
            have hd3 : raw.drop (offset + 3)
                = raw.getD (offset + 3) 0 :: raw.drop (offset + 4) :=
              drop_eq_getD_cons raw (offset + 3) (by omega)
            have hd4 : raw.drop (offset + 4) = d ++ raw.drop (offset + L) := by
              have h1 := List.take_append_drop (L - 4) (raw.drop (offset + 4))
              have h2 : (raw.drop (offset + 4)).drop (L - 4) = raw.drop (offset + L) := by
                rw [List.drop_drop]
                congr 1
                omega
              rw [← hd] at h1
              rw [← h1, h2]
            rw [to_bytes_cons, ihres, hd0, hd1, hd2, hd3, hd4]
            simp only [nodeBytes, List.cons_append, List.nil_append, List.append_assoc,
              List.cons.injEq]
            exact ⟨DevicePathType.ofValue?_value hty,
              Nat.mod_eq_of_lt (subtypeValid_lt hsub),
              by omega, by omega, trivial⟩

/-- C1 counterexample: the buffer `[4, 4, 8, 0]` decodes successfully (one
FilePath node whose declared length 8 overruns the 4-byte buffer, the payload
slice clamping to empty), but re-encoding emits header length 4 and does not
reproduce the buffer. -/
theorem c1_counterexample :
    from_bytes [4, 4, 8, 0] = .ok [⟨.MEDIA_DEVICE_PATH, 4, []⟩]
    ∧ to_bytes [⟨.MEDIA_DEVICE_PATH, 4, []⟩] ≠ [4, 4, 8, 0] :=
  ⟨rfl, by decide⟩

/-- C1 amended: for every byte buffer that decodes successfully and is
well formed, in the sense that every node consumed declares a length of at
least 4 lying entirely inside the buffer, re-encoding the decoded list
reproduces the buffer exactly, each node emitted in list order with header
length 4 plus payload size and no End-of-Path node synthesized. -/
theorem c1_roundtrip_wellformed :
    ∀ (raw : List Nat) (l : List DevicePath),
      (∀ b ∈ raw, b < 256) → wellFormed raw = true →
      from_bytes raw = .ok l → to_bytes l = raw := by
  intro raw l hb hwf hdec
  have h := roundtrip_aux (raw.length + 1) raw 0 l hb hwf hdec
  simpa using h

/-- C1 witness: a well-formed single-node buffer with a 2-byte payload
round-trips exactly. -/
theorem c1_roundtrip_wellformed_witness :
    to_bytes [⟨.MEDIA_DEVICE_PATH, 4, [65, 66]⟩] = [4, 4, 6, 0, 65, 66] :=
  c1_roundtrip_wellformed [4, 4, 6, 0, 65, 66] [⟨.MEDIA_DEVICE_PATH, 4, [65, 66]⟩]
    (by decide) (by decide) rfl

/-! ## C9: boot entry variable naming -/

theorem hexDigitUpper_isHex (k : Nat) (h : k < 16) :
    isUpperHexDigit (hexDigitUpper k) = true := by
  interval_cases k <;> decide

theorem hexUpperAux_chars :
    ∀ (fuel n : Nat) (c : Char), c ∈ hexUpperAux fuel n → isUpperHexDigit c = true := by
  intro fuel
  induction fuel with
  | zero => intro n c hc; simp [hexUpperAux] at hc
  | succ fuel ih =>
    intro n c hc
    unfold hexUpperAux at hc
    split_ifs at hc with h
    · simp only [List.mem_singleton] at hc
      subst hc
      exact hexDigitUpper_isHex n h
    · rcases List.mem_append.mp hc with h1 | h2
      · exact ih _ _ h1
      · simp only [List.mem_singleton] at h2
        subst h2
        exact hexDigitUpper_isHex _ (Nat.mod_lt _ (by omega))

theorem hexUpperAux_length :
    ∀ (fuel n k : Nat), n < 16 ^ k → 1 ≤ k → (hexUpperAux fuel n).length ≤ k := by
  intro fuel
  induction fuel with
  | zero => intro n k _ _; simp [hexUpperAux]
  | succ fuel ih =>
    intro n k h hk
    unfold hexUpperAux
    split_ifs with hlt
    · simpa using hk
    · have hk2 : 2 ≤ k := by
        by_contra hcon
        push_neg at hcon
        interval_cases k
        simp at h
        omega
      have hpow : 16 ^ k = 16 ^ (k - 1) * 16 := by
        conv_lhs => rw [show k = (k - 1) + 1 by omega]
        rw [pow_succ]
      have hdiv : n / 16 < 16 ^ (k - 1) := by
        rw [Nat.div_lt_iff_lt_mul (by norm_num)]
        omega
      have hrec := ih (n / 16) (k - 1) hdiv (by omega)
      simp only [List.length_append, List.length_singleton]
      omega

/-- C9 counterexample: the claim covers every signed 16-bit entry id, but a
negative id renders with a minus sign: id `-1` addresses the variable
`Boot-001`, which is not `Boot` followed by 4 uppercase hexadecimal digits. -/
theorem c9_counterexample :
    nameIsBootHex4 (bootEntryVarName (-1)) = false
    ∧ bootEntryVarName (-1) = "Boot-001" := by
  constructor <;> decide

/-- C9 amended: for every non-negative entry id below 65536, `get_boot_entry`
and `set_boot_entry` address the firmware variable named `Boot` followed by
the id rendered as exactly 4 uppercase hexadecimal digits; negative signed
16-bit ids render with a minus sign instead. -/
theorem c9_boot_entry_name :
    ∀ id : Int, 0 ≤ id → id < 65536 →
      nameIsBootHex4 (bootEntryVarName id) = true
      ∧ (∀ st, get_boot_entry true st id =
          match st (bootEntryVarName id) with
          | .ok raw => .ok raw
          | .error e => .error (.varError e))
      ∧ (∀ st raw, set_boot_entry true st id raw =
          .ok (storeUpdate st (bootEntryVarName id) raw)) := by
  intro id h0 h1
  refine ⟨?_, fun st => rfl, fun st raw => rfl⟩
  have hneg : ¬(id < 0) := by omega
  have hxlen : (hexUpper id.toNat).length ≤ 4 := by
    refine hexUpperAux_length (id.toNat + 1) id.toNat 4 ?_ (by norm_num)
    have : id.toNat < 65536 := by omega
    simpa using this
  have hxchars : ∀ c ∈ hexUpper id.toNat, isUpperHexDigit c = true :=
    fun c hc => hexUpperAux_chars _ _ c hc
  unfold bootEntryVarName format04XChars
  rw [if_neg hneg]
  show (decide ((['B', 'o', 'o', 't'] ++ padLeft '0' 4 (hexUpper id.toNat)).length = 8)
    && decide ((['B', 'o', 'o', 't'] ++ padLeft '0' 4 (hexUpper id.toNat)).take 4
        = ['B', 'o', 'o', 't'])
    && ((['B', 'o', 'o', 't'] ++ padLeft '0' 4 (hexUpper id.toNat)).drop 4).all
        isUpperHexDigit) = true
  rw [Bool.and_eq_true, Bool.and_eq_true]
  refine ⟨⟨?_, ?_⟩, ?_⟩
  · rw [decide_eq_true_eq]
    simp only [padLeft, List.length_append, List.length_replicate, List.length_cons,
      List.length_nil]
    omega
  · rw [decide_eq_true_eq]
    exact List.take_left' (show (['B', 'o', 'o', 't'] : List Char).length = 4 from rfl)
  · rw [List.drop_left' (show (['B', 'o', 'o', 't'] : List Char).length = 4 from rfl),
      List.all_eq_true]
    intro c hc
    rcases List.mem_append.mp hc with h2 | h2
    · rw [List.eq_of_mem_replicate h2]
      decide
    · exact hxchars c h2

/-- C9 witness: entry id 3 addresses `Boot0003`. -/
theorem c9_boot_entry_name_witness :
    nameIsBootHex4 (bootEntryVarName 3) = true ∧ bootEntryVarName 3 = "Boot0003" :=
  ⟨(c9_boot_entry_name 3 (by norm_num) (by norm_num)).1, by decide⟩

/-! ## C10: decode termination under positive declared lengths -/

theorem reaches_trans {raw : List Nat} {a b c : Nat}
    (h1 : Reaches raw a b) (h2 : Reaches raw b c) : Reaches raw a c := by
  induction h2 with
  | refl => exact h1
  | step _ hok ih => exact .step ih hok

theorem fromBytesAux_structError (fuel : Nat) (raw : List Nat) (o : Nat)
    (hoff : o < raw.length) (h4 : raw.length < o + 4) :
    fromBytesAux (fuel + 1) raw o = .error .structError := by
  conv_lhs => rw [fromBytesAux]
  rw [if_neg (by omega), if_neg (by omega)]

theorem no_outOfFuel_aux :
    ∀ (fuel : Nat) (raw : List Nat) (o : Nat),
      (∀ o2, Reaches raw o o2 → nodeOKAt raw o2 = true → 1 ≤ headerLen raw o2) →
      raw.length - o < fuel →
      fromBytesAux fuel raw o ≠ .error .outOfFuel := by
  intro fuel
  induction fuel with
  | zero => intro raw o _ hlt; omega
  | succ fuel ih =>
    intro raw o h hlt
    by_cases hoff : raw.length ≤ o
    · rw [fromBytesAux_of_le _ raw o hoff]; simp
    · by_cases h4 : o + 4 ≤ raw.length
      · cases hty : DevicePathType.ofValue? (raw.getD o 0) with
        | none => rw [fromBytesAux_unknownType fuel raw o h4 hty]; simp
        | some pt =>
          cases hsub : subtypeValid pt (raw.getD (o + 1) 0) with
          | false => rw [fromBytesAux_unknownSubtype fuel raw o pt h4 hty hsub]; simp
          | true =>
            rw [fromBytesAux_step fuel raw o pt h4 hty hsub]
            have hok : nodeOKAt raw o = true := by
              unfold nodeOKAt
              rw [hty]
              show (decide (o + 4 ≤ raw.length) && subtypeValid pt (raw.getD (o + 1) 0))
                = true
              rw [hsub]
              simp [h4]
            have hL : 1 ≤ headerLen raw o := h o (.refl o) hok
            have hstep : Reaches raw o (o + headerLen raw o) := .step (.refl o) hok
            have hrec := ih raw (o + headerLen raw o)
              (fun o2 hr hok2 => h o2 (reaches_trans hstep hr) hok2) (by omega)
            cases hres : fromBytesAux fuel raw (o + headerLen raw o) with
            | ok rest => simp
            | error e =>
              have he : e ≠ .outOfFuel := fun hcon => hrec (by rw [hres, hcon])
              simp [he]
      · rw [fromBytesAux_structError fuel raw o (by omega) (by omega)]; simp

/-- C10: `from_bytes` terminates, with the ample fuel budget of the embedding
untouched, on every buffer in which each node header the loop reads (at an
offset the loop reaches, with type and subtype recognized) declares a length
of at least 1, since each completed iteration advances the offset by exactly
the declared length. -/
theorem c10_from_bytes_terminates :
    ∀ raw : List Nat,
      (∀ o, Reaches raw 0 o → nodeOKAt raw o = true → 1 ≤ headerLen raw o) →
      from_bytes raw ≠ .error .outOfFuel := by
  intro raw h
  exact no_outOfFuel_aux (raw.length + 1) raw 0 h (by omega)

/-- C10 witness: a single well-formed node buffer decodes without exhausting
the fuel. -/
theorem c10_from_bytes_terminates_witness :
    from_bytes [4, 4, 4, 0] ≠ .error .outOfFuel :=
  c10_from_bytes_terminates [4, 4, 4, 0] (fun o _ hok => by
    unfold nodeOKAt at hok
    simp only [Bool.and_eq_true, decide_eq_true_eq] at hok
    have h4 := hok.1
    simp only [List.length_cons, List.length_nil] at h4
    have ho : o = 0 := by omega
    subst ho
    decide)

end FirmwareVariables
